import Mathlib

/-! Verification of the burnout risk calculation engine of the Respire
repository, shallowly embedded from `src/analysis.py` over exact rational
arithmetic.  Optional fields of a daily record are `Option ℚ`, a missing day
inside the analysis window is `none`, and calendar dates are modelled as
integers (one unit per day). -/

/-- One calendar day of metrics, mirroring the record dictionaries read by
`src/analysis.py`; an absent key is `none`. -/
structure DailyMetrics where
  date : Option ℤ
  recovery_score : Option ℚ
  mood_rating : Option ℚ
  hrv : Option ℚ
  strain : Option ℚ
  sleep_quality : Option ℚ
  sleep_efficiency : Option ℚ
  sleep_consistency : Option ℚ
  total_sleep_time : Option ℚ
  deep_sleep_time : Option ℚ
  rem_sleep_time : Option ℚ
  burnout_current : Option ℚ
deriving DecidableEq

/-- `calculate_time_exponential_weights` (analysis.py lines 49-67): raw
weights `decay_factor ** i` for `i` in `range(days_back)`, reversed, then
each divided by their sum. -/
def calculate_time_exponential_weights (days_back : ℕ) (decay_factor : ℚ) : List ℚ :=
  let raw_weights := ((List.range days_back).map (fun i => decay_factor ^ i)).reverse
  raw_weights.map (fun w => w / raw_weights.sum)

/-- Indicator used by the completeness count: 1 if the key metric is present,
else 0. -/
def metricInd (o : Option ℚ) : ℚ :=
  if o.isSome then 1 else 0

/-- Per-day completeness ratio of `calculate_missing_data_weights`
(analysis.py lines 69-118): the number of present key metrics
(recovery, mood, hrv, strain) divided by 4; 0.0 for a missing day. -/
def completeness (om : Option DailyMetrics) : ℚ :=
  match om with
  | none => 0
  | some m =>
    (metricInd m.recovery_score + metricInd m.mood_rating
      + metricInd m.hrv + metricInd m.strain) / 4

/-- `calculate_missing_data_weights` (analysis.py lines 69-118). -/
def calculate_missing_data_weights (metrics_list : List (Option DailyMetrics)) : List ℚ :=
  metrics_list.map completeness

/-- Date-indexed lookup built by `get_prior_metrics`: the Python dict is
populated in list order, so a later record with the same date overwrites an
earlier one (last wins); records without a date are skipped. -/
def dateIndexed (all_records : List DailyMetrics) (d : ℤ) : Option DailyMetrics :=
  (all_records.filter (fun r => r.date = some d)).getLast?

/-- `get_prior_metrics` (analysis.py lines 120-176): the records for the
`days_back` days preceding the current date, position-aligned, `none` for a
missing day; empty when the current day has no date or no records are
supplied. -/
def get_prior_metrics (metrics : DailyMetrics) (all_records : List DailyMetrics)
    (days_back : ℕ) : List (Option DailyMetrics) :=
  match metrics.date with
  | none => []
  | some current_date =>
    if all_records.isEmpty then []
    else (List.range days_back).map (fun i => dateIndexed all_records (current_date - (i + 1)))

/-- `compute_sleep_quality_score` (analysis.py lines 178-235): weighted blend
of the present sleep sub-metrics, divided by the sum of the weights actually
used and clamped to [0, 100]; falls back to the raw `sleep_quality` when no
sub-metric was computable. -/
def compute_sleep_quality_score (m : DailyMetrics) : Option ℚ :=
  let pairs : List (ℚ × ℚ) :=
    (match m.sleep_quality with
      | some q => [(q, 2/5)]
      | none => []) ++
    (match m.sleep_efficiency with
      | some q => [(q, 3/10)]
      | none => []) ++
    (match m.sleep_consistency with
      | some q => [(q, 3/10)]
      | none => []) ++
    (match m.total_sleep_time with
      | some t =>
        if 0 < t then
          (match m.deep_sleep_time with
            | some d => [(100 - min 100 (|d / t * 100 - 20| * 5), 1/10)]
            | none => []) ++
          (match m.rem_sleep_time with
            | some r => [(100 - min 100 (|r / t * 100 - 23| * 5), 1/10)]
            | none => [])
        else []
      | none => [])
  match pairs with
  | [] => m.sleep_quality
  | v :: vs =>
    let total_weight := ((v :: vs).map Prod.snd).sum
    if 0 < total_weight then
      some (max 0 (min 100 (((v :: vs).map (fun p => p.1 * p.2)).sum / total_weight)))
    else m.sleep_quality

/-- The analysis window `all_metrics = [metrics] + prior_metrics` of
`get_burnout_risk_score` (analysis.py lines 262-264), newest first. -/
def windowOf (metrics : DailyMetrics) (all_records : List DailyMetrics) :
    List (Option DailyMetrics) :=
  some metrics :: get_prior_metrics metrics all_records 7

/-- Combined per-day weights of `get_burnout_risk_score` (analysis.py line
273): time weight times completeness weight. -/
def combinedWeights (w : List (Option DailyMetrics)) : List ℚ :=
  List.zipWith (· * ·) (calculate_time_exponential_weights w.length (4/5))
    (calculate_missing_data_weights w)

/-- Normalized weights of `get_burnout_risk_score` (analysis.py lines
276-281): combined weights divided by their sum when positive, otherwise the
fallback that puts weight 1.0 on the current day. -/
def normalizedWeights (w : List (Option DailyMetrics)) : List ℚ :=
  if 0 < (combinedWeights w).sum then
    (combinedWeights w).map (fun x => x / (combinedWeights w).sum)
  else 1 :: List.replicate (w.length - 1) 0

/-- The (value, weight) pairs a component collects over the window: each
present day whose extracted metric is present contributes its risk value
paired with that day's normalized weight. -/
def riskVals (f : DailyMetrics → Option ℚ) (w : List (Option DailyMetrics))
    (nw : List ℚ) : List (ℚ × ℚ) :=
  (w.zip nw).filterMap (fun p => (p.1.bind f).map (fun r => (r, p.2)))

/-- The weighted component score pattern of `get_burnout_risk_score`: the sum
of value times weight over the collected pairs, or the neutral 50 when no day
contributed. -/
def weightedRisk (f : DailyMetrics → Option ℚ) (w : List (Option DailyMetrics))
    (nw : List ℚ) : ℚ :=
  match riskVals f w nw with
  | [] => 50
  | v :: vs => ((v :: vs).map (fun p => p.1 * p.2)).sum

/-- Per-day recovery risk (analysis.py line 290): `100 - recovery_score`. -/
def recoveryRiskOf (m : DailyMetrics) : Option ℚ :=
  m.recovery_score.map (fun r => 100 - r)

/-- Per-day HRV risk (analysis.py line 307):
`max(0, min(100, 100 - ((hrv - 20) / 80 * 100)))`. -/
def hrvRiskOf (m : DailyMetrics) : Option ℚ :=
  m.hrv.map (fun h => max 0 (min 100 (100 - (h - 20) / 80 * 100)))

/-- Per-day sleep risk (analysis.py lines 332-339): `100 - sleep_score` when
the sleep sub-score is computable. -/
def sleepRiskOf (m : DailyMetrics) : Option ℚ :=
  (compute_sleep_quality_score m).map (fun s => 100 - s)

/-- The piecewise ratio-to-risk map of the strain-balance component
(analysis.py lines 361-368). -/
def strainRatioRisk (ratio : ℚ) : ℚ :=
  if ratio < 7/10 then 20
  else if ratio < 1 then 30 + (ratio - 7/10) * 100
  else if ratio < 3/2 then 60 + (ratio - 1) * 80
  else 100

/-- Per-day strain-balance risk (analysis.py lines 351-368): strain is
normalized to 0-100 (capped), divided by the recovery score (sentinel ratio
2.0 when recovery is not positive), then mapped piecewise. -/
def strainBalanceRisk (strain recovery : ℚ) : ℚ :=
  strainRatioRisk (if 0 < recovery then min 100 (strain / 21 * 100) / recovery else 2)

/-- Per-day strain-balance risk as extracted inside the window loop
(analysis.py lines 350-370): needs both strain and recovery present. -/
def strainRiskOf (m : DailyMetrics) : Option ℚ :=
  m.strain.bind (fun s => m.recovery_score.map (fun r => strainBalanceRisk s r))

/-- Per-day mood risk (analysis.py line 385):
`100 - ((mood_rating - 1) / 9 * 100)`. -/
def moodRiskOf (m : DailyMetrics) : Option ℚ :=
  m.mood_rating.map (fun mr => 100 - (mr - 1) / 9 * 100)

/-- Number of days in the window contributing to a component (length of its
collected value list). -/
def presentCount (f : DailyMetrics → Option ℚ) (w : List (Option DailyMetrics)) : ℕ :=
  (w.filterMap (fun om => om.bind f)).length

/-- HRV short-term trend of `get_burnout_risk_score` (analysis.py lines
313-320): when at least 3 days in the window have HRV data, take the HRV
values present among the first 3 window positions; with at least 2 of them,
`-1 * (first - mean(rest))`, clamped to [-20, 20], scaled by 2.5; else 0. -/
def hrvTrend (w : List (Option DailyMetrics)) : ℚ :=
  if 3 ≤ presentCount (fun m => m.hrv) w then
    match (w.take 3).filterMap (fun om => om.bind (fun m => m.hrv)) with
    | x :: y :: rest =>
      max (-20) (min 20 (-1 * (x - (y :: rest).sum / ((y :: rest).length : ℚ)))) * (5/2)
    | _ => 0
  else 0

/-- Mood short-term trend (analysis.py lines 391-398): analogous to the HRV
trend with clamp [-4, 4] and scale 12.5. -/
def moodTrend (w : List (Option DailyMetrics)) : ℚ :=
  if 3 ≤ presentCount (fun m => m.mood_rating) w then
    match (w.take 3).filterMap (fun om => om.bind (fun m => m.mood_rating)) with
    | x :: y :: rest =>
      max (-4) (min 4 (-1 * (x - (y :: rest).sum / ((y :: rest).length : ℚ)))) * (25/2)
    | _ => 0
  else 0

/-- Recovery component score (analysis.py lines 283-296). -/
def recoveryRiskScore (w : List (Option DailyMetrics)) (nw : List ℚ) : ℚ :=
  weightedRisk recoveryRiskOf w nw

/-- HRV component score before the trend blend (analysis.py lines 298-322). -/
def hrvRiskBase (w : List (Option DailyMetrics)) (nw : List ℚ) : ℚ :=
  weightedRisk hrvRiskOf w nw

/-- HRV component score after the trend blend (analysis.py lines 324-326):
blended only when the trend is positive. -/
def hrvRiskScore (w : List (Option DailyMetrics)) (nw : List ℚ) : ℚ :=
  if 0 < hrvTrend w then hrvRiskBase w nw * (4/5) + hrvTrend w * (1/5)
  else hrvRiskBase w nw

/-- Sleep component score (analysis.py lines 328-344). -/
def sleepRiskScore (w : List (Option DailyMetrics)) (nw : List ℚ) : ℚ :=
  weightedRisk sleepRiskOf w nw

/-- Strain-to-recovery component score (analysis.py lines 346-375). -/
def strainRecoveryRisk (w : List (Option DailyMetrics)) (nw : List ℚ) : ℚ :=
  weightedRisk strainRiskOf w nw

/-- Mood component score before the trend blend (analysis.py lines 377-400). -/
def moodRiskBase (w : List (Option DailyMetrics)) (nw : List ℚ) : ℚ :=
  weightedRisk moodRiskOf w nw

/-- Mood component score after the trend blend (analysis.py lines 402-404). -/
def moodRiskScore (w : List (Option DailyMetrics)) (nw : List ℚ) : ℚ :=
  if 0 < moodTrend w then moodRiskBase w nw * (4/5) + moodTrend w * (1/5)
  else moodRiskBase w nw

/-- The weighted combination of the five component scores (analysis.py lines
406-422), before the final clamp. -/
def burnoutRiskRaw (w : List (Option DailyMetrics)) : ℚ :=
  recoveryRiskScore w (normalizedWeights w) * (1/4)
    + hrvRiskScore w (normalizedWeights w) * (3/20)
    + sleepRiskScore w (normalizedWeights w) * (3/20)
    + strainRecoveryRisk w (normalizedWeights w) * (3/20)
    + moodRiskScore w (normalizedWeights w) * (3/10)

/-- The burnout trend computed inside `get_burnout_risk_score` (analysis.py
lines 424-437): requires a window of at least 4 days AND a stored
`burnout_current` on the current day; then the pre-clamp score minus the
average of the prior days' stored scores, 0 when no prior day has one. -/
def burnoutTrend (w : List (Option DailyMetrics)) : ℚ :=
  if 4 ≤ w.length then
    match w with
    | some m0 :: rest =>
      if m0.burnout_current.isSome then
        match rest.filterMap (fun om => om.bind (fun mm => mm.burnout_current)) with
        | [] => 0
        | p :: ps => burnoutRiskRaw w - (p :: ps).sum / ((p :: ps).length : ℚ)
      else 0
    | _ => 0
  else 0

/-- `get_burnout_risk_score` (analysis.py lines 237-459): `none` when there is
no current record or its recovery score is absent, otherwise the clamped
weighted combination `min(100, max(0, burnout_risk))`. -/
def get_burnout_risk_score (metrics : Option DailyMetrics)
    (all_records : List DailyMetrics) : Option ℚ :=
  match metrics with
  | none => none
  | some m =>
    if m.recovery_score.isSome then
      some (min 100 (max 0 (burnoutRiskRaw (windowOf m all_records))))
    else none

/-- A record whose recovery score has been replaced (used to state that two
inputs are identical except for the current day recovery value). -/
def setRecovery (m : DailyMetrics) (r : ℚ) : DailyMetrics :=
  { m with recovery_score := some r }

/-- A record carrying only a date and a recovery score. -/
def onlyRecovery (dt : Option ℤ) (r : ℚ) : DailyMetrics :=
  ⟨dt, some r, none, none, none, none, none, none, none, none, none, none⟩

/-- The fully absent record. -/
def emptyDay : DailyMetrics :=
  ⟨none, none, none, none, none, none, none, none, none, none, none, none⟩

/-- A record with all four key metrics present (recovery 50, mood 5, hrv 50,
strain 10) at the given date. -/
def fullKeyDay (d : ℤ) : DailyMetrics :=
  ⟨some d, some 50, some 5, some 50, some 10, none, none, none, none, none, none, none⟩

/-- A record carrying only an HRV value. -/
def hrvDay (v : ℚ) : DailyMetrics :=
  ⟨none, none, none, some v, none, none, none, none, none, none, none, none⟩

/-- Current-day record for the burnout-trend analysis: date 0, recovery 50,
no stored burnout score. -/
def c7cur : DailyMetrics :=
  ⟨some 0, some 50, none, none, none, none, none, none, none, none, none, none⟩

/-- Prior-day record carrying only a stored burnout score of 10. -/
def c7prior (d : ℤ) : DailyMetrics :=
  ⟨some d, none, none, none, none, none, none, none, none, none, none, some 10⟩

/-- Current-day record for the burnout-trend witness: date 0, a stored
burnout score of 20 and nothing else. -/
def c7curStored : DailyMetrics :=
  ⟨some 0, none, none, none, none, none, none, none, none, none, none, some 20⟩

/-- Claim-side deep-sleep sub-score, following the specification wording of
the sleep helper: present only when total sleep time is present and positive
and the deep sleep time is present. -/
def sleepDeepScoreSpec (m : DailyMetrics) : Option ℚ :=
  match m.total_sleep_time, m.deep_sleep_time with
  | some t, some d => if 0 < t then some (100 - min 100 (|d / t * 100 - 20| * 5)) else none
  | _, _ => none

/-- Claim-side REM-sleep sub-score, following the specification wording of
the sleep helper. -/
def sleepRemScoreSpec (m : DailyMetrics) : Option ℚ :=
  match m.total_sleep_time, m.rem_sleep_time with
  | some t, some r => if 0 < t then some (100 - min 100 (|r / t * 100 - 23| * 5)) else none
  | _, _ => none

/-- A sub-metric's contribution to the claimed weighted numerator: its value
times its fixed weight when present, 0 otherwise. -/
def optTerm (o : Option ℚ) (wt : ℚ) : ℚ :=
  match o with
  | some q => q * wt
  | none => 0

/-- A sub-metric's contribution to the claimed weight denominator: its fixed
weight when present, 0 otherwise. -/
def optWeight (o : Option ℚ) (wt : ℚ) : ℚ :=
  if o.isSome then wt else 0

/-- Claim-side sleep score, written from the specification wording: the
weighted average of exactly the present sub-metrics, divided by the sum of
the weights actually used, clamped to [0, 100]; the raw sleep quality when
no sub-metric is computable. -/
def sleepScoreSpec (m : DailyMetrics) : Option ℚ :=
  let num := optTerm m.sleep_quality (2/5) + optTerm m.sleep_efficiency (3/10)
    + optTerm m.sleep_consistency (3/10) + optTerm (sleepDeepScoreSpec m) (1/10)
    + optTerm (sleepRemScoreSpec m) (1/10)
  let den := optWeight m.sleep_quality (2/5) + optWeight m.sleep_efficiency (3/10)
    + optWeight m.sleep_consistency (3/10) + optWeight (sleepDeepScoreSpec m) (1/10)
    + optWeight (sleepRemScoreSpec m) (1/10)
  if den = 0 then m.sleep_quality else some (min 100 (max 0 (num / den)))

/-- Claim-side HRV trend formula as stated for C5: computed from the HRV
values of the 3 most recent days using the OLDEST of the three against the
mean of the other two, clamped to [-20, 20] and scaled by 2.5. -/
def hrvTrendClaimed (w : List (Option DailyMetrics)) : ℚ :=
  if 3 ≤ presentCount (fun m => m.hrv) w then
    match (w.take 3).filterMap (fun om => om.bind (fun m => m.hrv)) with
    | [a, b, c] => max (-20) (min 20 (-1 * (c - (a + b) / 2))) * (5/2)
    | _ => 0
  else 0

/-! General lemmas about the weighting subsystem. -/

theorem sum_map_div (l : List ℚ) (s : ℚ) : (l.map (fun w => w / s)).sum = l.sum / s := by
  induction l with
  | nil => simp
  | cons a t ih => simp [ih, add_div]

theorem timeWeights_length (n : ℕ) (d : ℚ) :
    (calculate_time_exponential_weights n d).length = n := by
  simp [calculate_time_exponential_weights]

theorem timeWeights_mem_pos (n : ℕ) :
    ∀ x ∈ calculate_time_exponential_weights n (4/5), 0 < x := by
  intro x hx
  unfold calculate_time_exponential_weights at hx
  obtain ⟨w, hw, rfl⟩ := List.mem_map.mp hx
  have hraw : ∀ y ∈ ((List.range n).map (fun i => (4/5 : ℚ) ^ i)).reverse, 0 < y := by
    intro y hy
    rw [List.mem_reverse] at hy
    obtain ⟨i, _, rfl⟩ := List.mem_map.mp hy
    positivity
  exact div_pos (hraw w hw) (List.sum_pos _ hraw (List.ne_nil_of_mem hw))

theorem timeWeights_sum_eq_one (n : ℕ) (hn : 1 ≤ n) :
    (calculate_time_exponential_weights n (4/5)).sum = 1 := by
  unfold calculate_time_exponential_weights
  rw [sum_map_div]
  have hraw : ∀ y ∈ ((List.range n).map (fun i => (4/5 : ℚ) ^ i)).reverse, 0 < y := by
    intro y hy
    rw [List.mem_reverse] at hy
    obtain ⟨i, _, rfl⟩ := List.mem_map.mp hy
    positivity
  have hne : ((List.range n).map (fun i => (4/5 : ℚ) ^ i)).reverse ≠ [] := by
    simp [List.range_eq_nil]
    omega
  exact div_self (ne_of_gt (List.sum_pos _ hraw hne))

theorem metricInd_nonneg (o : Option ℚ) : 0 ≤ metricInd o := by
  unfold metricInd; split <;> norm_num

theorem completeness_some (m : DailyMetrics) :
    completeness (some m) = (metricInd m.recovery_score + metricInd m.mood_rating
      + metricInd m.hrv + metricInd m.strain) / 4 := rfl

theorem completeness_nonneg (om : Option DailyMetrics) : 0 ≤ completeness om := by
  cases om with
  | none => simp [completeness]
  | some m =>
    have h1 := metricInd_nonneg m.recovery_score
    have h2 := metricInd_nonneg m.mood_rating
    have h3 := metricInd_nonneg m.hrv
    have h4 := metricInd_nonneg m.strain
    unfold completeness
    linarith

theorem completeness_of_recovery (m : DailyMetrics) (h : m.recovery_score.isSome) :
    1/4 ≤ completeness (some m) := by
  have h1 : metricInd m.recovery_score = 1 := by simp [metricInd, h]
  have h2 := metricInd_nonneg m.mood_rating
  have h3 := metricInd_nonneg m.hrv
  have h4 := metricInd_nonneg m.strain
  rw [completeness_some, h1]
  linarith

theorem zipWith_mul_mem_nonneg (l1 : List ℚ) : ∀ l2 : List ℚ, (∀ x ∈ l1, 0 ≤ x) →
    (∀ y ∈ l2, 0 ≤ y) → ∀ z ∈ List.zipWith (· * ·) l1 l2, 0 ≤ z := by
  induction l1 with
  | nil => intro l2 _ _ z hz; simp at hz
  | cons a t ih =>
    intro l2 h1 h2 z hz
    cases l2 with
    | nil => simp at hz
    | cons b s =>
      simp only [List.zipWith_cons_cons] at hz
      rcases List.mem_cons.mp hz with hz | hz
      · subst hz
        exact mul_nonneg (h1 a (List.mem_cons_self a t)) (h2 b (List.mem_cons_self b s))
      · exact ih s (fun x hx => h1 x (List.mem_cons_of_mem a hx))
          (fun y hy => h2 y (List.mem_cons_of_mem b hy)) z hz

theorem combinedWeights_cons (mh : DailyMetrics) (t : List (Option DailyMetrics)) :
    ∃ t0 ts, calculate_time_exponential_weights (some mh :: t).length (4/5) = t0 :: ts ∧
      0 < t0 ∧ (∀ x ∈ ts, 0 < x) ∧
      combinedWeights (some mh :: t) =
        t0 * completeness (some mh) :: List.zipWith (· * ·) ts (t.map completeness) := by
  have hlen : (calculate_time_exponential_weights (some mh :: t).length (4/5)).length =
      t.length + 1 := by
    rw [timeWeights_length]; simp
  obtain ⟨t0, ts, hts⟩ := List.exists_cons_of_ne_nil
    (List.ne_nil_of_length_pos (by omega : 0 < (calculate_time_exponential_weights
      (some mh :: t).length (4/5)).length))
  refine ⟨t0, ts, hts, ?_, ?_, ?_⟩
  · exact timeWeights_mem_pos _ t0 (hts ▸ List.mem_cons_self _ _)
  · exact fun x hx => timeWeights_mem_pos _ x (hts ▸ List.mem_cons_of_mem _ hx)
  · unfold combinedWeights calculate_missing_data_weights
    rw [hts]
    simp

theorem combinedWeights_sum_pos (mh : DailyMetrics) (t : List (Option DailyMetrics))
    (h : mh.recovery_score.isSome) : 0 < (combinedWeights (some mh :: t)).sum := by
  obtain ⟨t0, ts, _, ht0, hts, hcw⟩ := combinedWeights_cons mh t
  rw [hcw]
  have hhead : 0 < t0 * completeness (some mh) :=
    mul_pos ht0 (lt_of_lt_of_le (by norm_num) (completeness_of_recovery mh h))
  have hrest : 0 ≤ (List.zipWith (· * ·) ts (t.map completeness)).sum := by
    apply List.sum_nonneg
    apply zipWith_mul_mem_nonneg
    · exact fun x hx => le_of_lt (hts x hx)
    · intro y hy
      obtain ⟨om, _, rfl⟩ := List.mem_map.mp hy
      exact completeness_nonneg om
  simp only [List.sum_cons]
  linarith

theorem normalizedWeights_shape (mh : DailyMetrics) (t : List (Option DailyMetrics))
    (h : mh.recovery_score.isSome) :
    ∃ n0 ns, normalizedWeights (some mh :: t) = n0 :: ns ∧ 0 < n0 ∧ ∀ x ∈ ns, 0 ≤ x := by
  obtain ⟨t0, ts, _, ht0, hts, hcw⟩ := combinedWeights_cons mh t
  have hsum := combinedWeights_sum_pos mh t h
  have hsum2 : 0 < (t0 * completeness (some mh) ::
      List.zipWith (· * ·) ts (t.map completeness)).sum := hcw ▸ hsum
  refine ⟨t0 * completeness (some mh) / (t0 * completeness (some mh) ::
      List.zipWith (· * ·) ts (t.map completeness)).sum,
    (List.zipWith (· * ·) ts (t.map completeness)).map
      (fun x => x / (t0 * completeness (some mh) ::
        List.zipWith (· * ·) ts (t.map completeness)).sum), ?_, ?_, ?_⟩
  · unfold normalizedWeights
    rw [if_pos hsum, hcw]
    simp
  · exact div_pos (mul_pos ht0 (lt_of_lt_of_le (by norm_num)
      (completeness_of_recovery mh h))) hsum2
  · intro x hx
    obtain ⟨y, hy, rfl⟩ := List.mem_map.mp hx
    refine div_nonneg ?_ (le_of_lt hsum2)
    refine zipWith_mul_mem_nonneg ts (t.map completeness) ?_ ?_ y hy
    · exact fun a ha => le_of_lt (hts a ha)
    · intro b hb
      obtain ⟨om, _, rfl⟩ := List.mem_map.mp hb
      exact completeness_nonneg om

/-! Lemmas about the component-score pattern. -/

theorem riskVals_cons_none (f : DailyMetrics → Option ℚ) (o : Option DailyMetrics)
    (t : List (Option DailyMetrics)) (a : ℚ) (ns : List ℚ) (h : o.bind f = none) :
    riskVals f (o :: t) (a :: ns) = riskVals f t ns := by
  unfold riskVals
  simp only [List.zip_cons_cons, List.filterMap_cons, h, Option.map_none']

theorem riskVals_cons_some (f : DailyMetrics → Option ℚ) (o : Option DailyMetrics)
    (t : List (Option DailyMetrics)) (a v : ℚ) (ns : List ℚ) (h : o.bind f = some v) :
    riskVals f (o :: t) (a :: ns) = (v, a) :: riskVals f t ns := by
  unfold riskVals
  simp only [List.zip_cons_cons, List.filterMap_cons, h, Option.map_some']

theorem weightedRisk_cons_some (f : DailyMetrics → Option ℚ) (o : Option DailyMetrics)
    (t : List (Option DailyMetrics)) (a v : ℚ) (ns : List ℚ) (h : o.bind f = some v) :
    weightedRisk f (o :: t) (a :: ns) =
      v * a + ((riskVals f t ns).map (fun p => p.1 * p.2)).sum := by
  unfold weightedRisk
  rw [riskVals_cons_some f o t a v ns h]
  simp

theorem weightedRisk_congr (f : DailyMetrics → Option ℚ) (w1 w2 : List (Option DailyMetrics))
    (nw1 nw2 : List ℚ) (h : riskVals f w1 nw1 = riskVals f w2 nw2) :
    weightedRisk f w1 nw1 = weightedRisk f w2 nw2 := by
  unfold weightedRisk
  rw [h]

/-! Lemmas about the strain-balance piecewise map. -/

theorem strainRatioRisk_le_100 (ratio : ℚ) : strainRatioRisk ratio ≤ 100 := by
  unfold strainRatioRisk
  split_ifs <;> linarith

theorem strainRatioRisk_mono (a b : ℚ) (h : a ≤ b) :
    strainRatioRisk a ≤ strainRatioRisk b := by
  unfold strainRatioRisk
  split_ifs <;> linarith

theorem strainBalanceRisk_anti (s r1 r2 : ℚ) (h : r2 ≤ r1) :
    strainBalanceRisk s r1 ≤ strainBalanceRisk s r2 := by
  unfold strainBalanceRisk
  by_cases hr2 : 0 < r2
  · have hr1 : 0 < r1 := lt_of_lt_of_le hr2 h
    rw [if_pos hr1, if_pos hr2]
    rcases le_or_lt 0 (min 100 (s / 21 * 100)) with hsn | hsn
    · apply strainRatioRisk_mono
      gcongr
    · have h1 : min 100 (s / 21 * 100) / r1 < 7/10 := by
        have := div_neg_of_neg_of_pos hsn hr1
        linarith
      have h2 : min 100 (s / 21 * 100) / r2 < 7/10 := by
        have := div_neg_of_neg_of_pos hsn hr2
        linarith
      unfold strainRatioRisk
      rw [if_pos h1, if_pos h2]
  · rw [if_neg hr2]
    split_ifs with hr1
    · have h2 : (100 : ℚ) = strainRatioRisk 2 := by norm_num [strainRatioRisk]
      calc strainRatioRisk (min 100 (s / 21 * 100) / r1) ≤ 100 := strainRatioRisk_le_100 _
        _ = strainRatioRisk 2 := h2
    · exact le_refl _

theorem clamp_comm (x : ℚ) : max 0 (min 100 x) = min 100 (max 0 x) := by
  rw [max_min_distrib_left]
  norm_num

set_option maxHeartbeats 4000000 in
/-- C9: for every day record, `compute_sleep_quality_score` returns the
weighted average of exactly the present sub-metrics (sleep quality 0.4,
efficiency 0.3, consistency 0.3, deep-sleep score 0.1 and REM score 0.1, the
last two only when total sleep time is present and positive), divided by the
sum of the weights actually used and clamped to [0, 100]; when no sub-metric
is computable it returns the raw sleep quality value, which may itself be
absent. -/
theorem sleep_score_refines_claim (m : DailyMetrics) :
    compute_sleep_quality_score m = sleepScoreSpec m := by
  obtain ⟨dtf, rec, mood, hv, st, sq, se, sc, tst, dst, rst, bc⟩ := m
  rcases tst with _ | t
  · cases sq <;> cases se <;> cases sc <;>
      simp [compute_sleep_quality_score, sleepScoreSpec, sleepDeepScoreSpec, sleepRemScoreSpec,
        optTerm, optWeight, clamp_comm, add_assoc] <;>
      norm_num
  · cases sq <;> cases se <;> cases sc <;> cases dst <;> cases rst <;>
      simp [compute_sleep_quality_score, sleepScoreSpec, sleepDeepScoreSpec, sleepRemScoreSpec,
        optTerm, optWeight, clamp_comm, add_assoc]
    all_goals try split_ifs
    all_goals try linarith
    all_goals try (simp [clamp_comm, add_assoc]; done)
    all_goals simp_all [clamp_comm, add_assoc]
    all_goals try linarith

set_option maxHeartbeats 1000000 in
theorem onlyRecovery_value (dt : Option ℤ) :
    get_burnout_risk_score (some (onlyRecovery dt 70)) [] = some 45 := by
  cases dt <;>
  norm_num [get_burnout_risk_score, burnoutRiskRaw, windowOf, get_prior_metrics, onlyRecovery,
    normalizedWeights, combinedWeights, calculate_time_exponential_weights,
    calculate_missing_data_weights, completeness, metricInd, recoveryRiskScore, hrvRiskScore,
    hrvRiskBase, hrvTrend, sleepRiskScore, strainRecoveryRisk, moodRiskScore, moodRiskBase,
    moodTrend, weightedRisk, riskVals, presentCount, recoveryRiskOf, hrvRiskOf, sleepRiskOf,
    moodRiskOf, strainRiskOf, compute_sleep_quality_score, List.range_succ,
    List.filterMap_cons, List.filterMap_nil]

/-- C1: for every current-day record whose recovery score is absent,
`get_burnout_risk_score` returns `none` immediately, regardless of all other
fields and of the historical records supplied; the embedding is a total
function, so no exception is possible. -/
theorem burnout_none_of_missing_recovery (m : DailyMetrics) (recs : List DailyMetrics)
    (h : m.recovery_score = none) : get_burnout_risk_score (some m) recs = none := by
  simp [get_burnout_risk_score, h]

theorem burnout_none_of_missing_recovery_witness :
    get_burnout_risk_score (some emptyDay) [fullKeyDay 0] = none :=
  burnout_none_of_missing_recovery emptyDay [fullKeyDay 0] rfl

/-- C2 counterexample: a current day with only recovery score 70 and no
history yields exactly 45, not the claimed 45.5 (the claimed sum
30*0.25 + 50*0.15*3 + 50*0.30 equals 45, not 45.5). -/
theorem neutral_fallback_counterexample :
    get_burnout_risk_score (some (onlyRecovery none 70)) [] = some 45 ∧
    get_burnout_risk_score (some (onlyRecovery none 70)) [] ≠ some (91/2) := by
  have h := onlyRecovery_value none
  refine ⟨h, ?_⟩
  rw [h]
  intro hc
  exact absurd (Option.some.inj hc) (by norm_num)

/-- C2 amended: a current day with only recovery score 70 present (any or no
date) and no historical records yields exactly
30*0.25 + 50*0.15 + 50*0.15 + 50*0.15 + 50*0.30 = 45.0. -/
theorem neutral_fallback_value (dt : Option ℤ) :
    get_burnout_risk_score (some (onlyRecovery dt 70)) [] =
      some ((100 - 70) * (1/4) + 50 * (3/20) + 50 * (3/20) + 50 * (3/20) + 50 * (3/10)) := by
  rw [onlyRecovery_value dt]
  norm_num

/-- C4: whenever `get_burnout_risk_score` returns a value, that value lies in
[0, 100], because the weighted combination is clamped before being
returned. -/
theorem burnout_score_bounds (metrics : Option DailyMetrics) (recs : List DailyMetrics)
    (x : ℚ) (h : get_burnout_risk_score metrics recs = some x) : 0 ≤ x ∧ x ≤ 100 := by
  cases metrics with
  | none => exact absurd h (by simp [get_burnout_risk_score])
  | some m =>
    by_cases hr : m.recovery_score.isSome
    · have h2 : get_burnout_risk_score (some m) recs =
          some (min 100 (max 0 (burnoutRiskRaw (windowOf m recs)))) := by
        simp [get_burnout_risk_score, hr]
      rw [h2] at h
      obtain rfl := Option.some.inj h
      exact ⟨le_min (by norm_num) (le_max_left 0 _), min_le_left _ _⟩
    · have h2 : get_burnout_risk_score (some m) recs = none := by
        simp [get_burnout_risk_score, hr]
      rw [h2] at h
      exact Option.noConfusion h

theorem burnout_score_bounds_witness : (0:ℚ) ≤ 45 ∧ (45:ℚ) ≤ 100 :=
  burnout_score_bounds (some (onlyRecovery none 70)) [] 45 (onlyRecovery_value none)

/-- C6: for a day with both strain and recovery present (strain in the 0-21
Borg range, recovery nonnegative), the per-day strain-balance risk is the
piecewise map of ratio = (strain/21*100)/recovery, with sentinel ratio 2.0
when recovery is 0, and the map satisfies: ratio 0.7 gives 30, ratio 1.0
gives 60, ratio 1.5 gives 100, ratio 2.0 gives 100. -/
theorem strain_balance_piecewise :
    (∀ s r : ℚ, 0 ≤ s → s ≤ 21 → 0 < r →
      strainBalanceRisk s r = strainRatioRisk (s / 21 * 100 / r)) ∧
    (∀ s : ℚ, strainBalanceRisk s 0 = strainRatioRisk 2) ∧
    strainRatioRisk (7/10) = 30 ∧ strainRatioRisk 1 = 60 ∧
    strainRatioRisk (3/2) = 100 ∧ strainRatioRisk 2 = 100 := by
  refine ⟨?_, ?_, ?_, ?_, ?_, ?_⟩
  · intro s r hs hs21 hr
    unfold strainBalanceRisk
    rw [if_pos hr]
    congr 2
    rw [min_eq_right]
    have h1 : s / 21 ≤ 1 := (div_le_one (by norm_num)).mpr hs21
    linarith
  · intro s
    unfold strainBalanceRisk
    norm_num
  · norm_num [strainRatioRisk]
  · norm_num [strainRatioRisk]
  · norm_num [strainRatioRisk]
  · norm_num [strainRatioRisk]

theorem strain_balance_piecewise_witness :
    strainBalanceRisk 14 50 = strainRatioRisk (14 / 21 * 100 / 50) ∧
    strainBalanceRisk 7 0 = strainRatioRisk 2 :=
  ⟨strain_balance_piecewise.1 14 50 (by norm_num) (by norm_num) (by norm_num),
   strain_balance_piecewise.2.1 7⟩

/-- C10: under the function's own precondition (current-day recovery score
present), the degenerate-weights fallback branch is unreachable: the current
day's completeness weight is at least 1/4, every time-decay weight is
positive, so the combined weight sum is strictly positive and the
normalization takes the well-defined division branch. -/
theorem degenerate_weights_unreachable (m : DailyMetrics) (recs : List DailyMetrics)
    (h : m.recovery_score.isSome) :
    1/4 ≤ completeness (some m) ∧
    (∀ x ∈ calculate_time_exponential_weights (windowOf m recs).length (4/5), 0 < x) ∧
    0 < (combinedWeights (windowOf m recs)).sum ∧
    normalizedWeights (windowOf m recs) = (combinedWeights (windowOf m recs)).map
      (fun x => x / (combinedWeights (windowOf m recs)).sum) := by
  have hsum : 0 < (combinedWeights (windowOf m recs)).sum := by
    unfold windowOf
    exact combinedWeights_sum_pos m (get_prior_metrics m recs 7) h
  refine ⟨completeness_of_recovery m h, timeWeights_mem_pos _, hsum, ?_⟩
  unfold normalizedWeights
  rw [if_pos hsum]

theorem degenerate_weights_unreachable_witness :
    1/4 ≤ completeness (some (onlyRecovery none 70)) ∧
    (∀ x ∈ calculate_time_exponential_weights
      (windowOf (onlyRecovery none 70) []).length (4/5), 0 < x) ∧
    0 < (combinedWeights (windowOf (onlyRecovery none 70) [])).sum ∧
    normalizedWeights (windowOf (onlyRecovery none 70) []) =
      (combinedWeights (windowOf (onlyRecovery none 70) [])).map
        (fun x => x / (combinedWeights (windowOf (onlyRecovery none 70) [])).sum) :=
  degenerate_weights_unreachable (onlyRecovery none 70) [] rfl

set_option maxHeartbeats 2000000 in
/-- C3 (code bug evaluation): the time-decay weights for an 8-day window sum
to 1 and the single weight for a 1-day window is 1.0, but in
`get_burnout_risk_score` the window is ordered newest first while the weight
list is ordered with the largest weight LAST, so the current day receives the
smallest time-decay weight: with a fully present current day (date 1) and one
fully present prior day (date 0) the normalized weights are [4/9, 5/9, ...],
giving the prior day strictly more weight than the current day. -/
theorem time_weights_misordered_at_current_day :
    (calculate_time_exponential_weights 8 (4/5)).sum = 1 ∧
    calculate_time_exponential_weights 1 (4/5) = [1] ∧
    normalizedWeights (windowOf (fullKeyDay 1) [fullKeyDay 0]) =
      [4/9, 5/9, 0, 0, 0, 0, 0, 0] ∧
    ((4:ℚ)/9 < 5/9) := by
  refine ⟨timeWeights_sum_eq_one 8 (by norm_num), ?_, ?_, by norm_num⟩
  · norm_num [calculate_time_exponential_weights, List.range_succ]
  · norm_num [windowOf, get_prior_metrics, fullKeyDay, normalizedWeights, combinedWeights,
      calculate_time_exponential_weights, calculate_missing_data_weights, completeness,
      metricInd, dateIndexed, List.range_succ, List.filterMap_cons, List.filterMap_nil,
      List.filter]

/-- C5 counterexample: on a window whose three most recent days have HRV
40 (current), 60, 55, the code computes the trend from the NEWEST value,
giving -1*(40 - (60+55)/2) = 17.5, clamped and scaled to 175/4; the claimed
oldest-of-three formula gives -1*(55 - (40+60)/2) = -5, clamped and scaled to
-25/2.  The two disagree. -/
theorem hrv_trend_formula_counterexample :
    hrvTrend [some (hrvDay 40), some (hrvDay 60), some (hrvDay 55),
      none, none, none, none, none] = 175/4 ∧
    hrvTrendClaimed [some (hrvDay 40), some (hrvDay 60), some (hrvDay 55),
      none, none, none, none, none] = -25/2 ∧
    hrvTrend [some (hrvDay 40), some (hrvDay 60), some (hrvDay 55),
      none, none, none, none, none] ≠
      hrvTrendClaimed [some (hrvDay 40), some (hrvDay 60), some (hrvDay 55),
        none, none, none, none, none] := by
  refine ⟨?_, ?_, ?_⟩ <;>
    norm_num [hrvTrend, hrvTrendClaimed, presentCount, hrvDay,
      List.filterMap_cons, List.filterMap_nil]

/-- C5 amended: when the current day and the two preceding window positions
all carry HRV values a, b, c (newest first), the HRV trend equals
-1 * (a - mean(b, c)) (the NEWEST against the mean of the two older values),
clamped to [-20, 20] and scaled by 2.5; a declining trajectory
(a below the mean of the older two) gives a positive trend; and the HRV
component is blended as base*0.8 + trend*0.2 exactly when the trend is
positive, staying the unblended base otherwise. -/
theorem hrv_trend_characterization (m0 m1 m2 : DailyMetrics)
    (rest : List (Option DailyMetrics)) (a b c : ℚ)
    (h0 : m0.hrv = some a) (h1 : m1.hrv = some b) (h2 : m2.hrv = some c) :
    hrvTrend (some m0 :: some m1 :: some m2 :: rest)
      = max (-20) (min 20 (-1 * (a - (b + c) / 2))) * (5/2) ∧
    (a < (b + c) / 2 → 0 < hrvTrend (some m0 :: some m1 :: some m2 :: rest)) ∧
    ∀ nw : List ℚ,
      (0 < hrvTrend (some m0 :: some m1 :: some m2 :: rest) →
        hrvRiskScore (some m0 :: some m1 :: some m2 :: rest) nw =
          hrvRiskBase (some m0 :: some m1 :: some m2 :: rest) nw * (4/5)
            + hrvTrend (some m0 :: some m1 :: some m2 :: rest) * (1/5)) ∧
      (hrvTrend (some m0 :: some m1 :: some m2 :: rest) ≤ 0 →
        hrvRiskScore (some m0 :: some m1 :: some m2 :: rest) nw =
          hrvRiskBase (some m0 :: some m1 :: some m2 :: rest) nw) := by
  have hcount : 3 ≤ presentCount (fun m => m.hrv)
      (some m0 :: some m1 :: some m2 :: rest) := by
    simp [presentCount, List.filterMap_cons, h0, h1, h2]
  have hmain : hrvTrend (some m0 :: some m1 :: some m2 :: rest)
      = max (-20) (min 20 (-1 * (a - (b + c) / 2))) * (5/2) := by
    unfold hrvTrend
    rw [if_pos hcount]
    simp [List.filterMap_cons, h0, h1, h2]
  refine ⟨hmain, ?_, ?_⟩
  · intro hab
    rw [hmain]
    have ht : 0 < -1 * (a - (b + c) / 2) := by linarith
    have hmin : 0 < min 20 (-1 * (a - (b + c) / 2)) := lt_min (by norm_num) ht
    have hmax : 0 < max (-20) (min 20 (-1 * (a - (b + c) / 2))) :=
      lt_of_lt_of_le hmin (le_max_right _ _)
    exact mul_pos hmax (by norm_num)
  · intro nw
    constructor
    · intro hpos
      unfold hrvRiskScore
      rw [if_pos hpos]
    · intro hle
      unfold hrvRiskScore
      rw [if_neg (not_lt.mpr hle)]

theorem hrv_trend_characterization_witness :
    (hrvTrend [some (hrvDay 30), some (hrvDay 50), some (hrvDay 50)]
      = max (-20) (min 20 (-1 * (30 - (50 + 50) / 2))) * (5/2)) ∧
    ((30:ℚ) < (50 + 50) / 2 →
      0 < hrvTrend [some (hrvDay 30), some (hrvDay 50), some (hrvDay 50)]) ∧
    ∀ nw : List ℚ,
      (0 < hrvTrend [some (hrvDay 30), some (hrvDay 50), some (hrvDay 50)] →
        hrvRiskScore [some (hrvDay 30), some (hrvDay 50), some (hrvDay 50)] nw =
          hrvRiskBase [some (hrvDay 30), some (hrvDay 50), some (hrvDay 50)] nw * (4/5)
            + hrvTrend [some (hrvDay 30), some (hrvDay 50), some (hrvDay 50)] * (1/5)) ∧
      (hrvTrend [some (hrvDay 30), some (hrvDay 50), some (hrvDay 50)] ≤ 0 →
        hrvRiskScore [some (hrvDay 30), some (hrvDay 50), some (hrvDay 50)] nw =
          hrvRiskBase [some (hrvDay 30), some (hrvDay 50), some (hrvDay 50)] nw) :=
  hrv_trend_characterization (hrvDay 30) (hrvDay 50) (hrvDay 50) [] 30 50 50 rfl rfl rfl

set_option maxHeartbeats 2000000 in
/-- C7 counterexample: a window of 8 days (current day date 0 with recovery
50 and NO stored burnout score; three prior days whose only datum is a
stored burnout score of 10) has at least 4 days; the prior stored scores are
[10, 10, 10] and the pre-clamp overall score is 50, so the claim predicts a
trend of 50 - 10 = 40, but the code computes 0 because it also requires a
stored burnout score on the current day itself. -/
theorem burnout_trend_counterexample :
    4 ≤ (windowOf c7cur [c7prior (-1), c7prior (-2), c7prior (-3)]).length ∧
    c7cur.burnout_current = none ∧
    ((windowOf c7cur [c7prior (-1), c7prior (-2), c7prior (-3)]).tail.filterMap
      (fun om => om.bind (fun mm => mm.burnout_current))) = [10, 10, 10] ∧
    burnoutRiskRaw (windowOf c7cur [c7prior (-1), c7prior (-2), c7prior (-3)]) = 50 ∧
    burnoutTrend (windowOf c7cur [c7prior (-1), c7prior (-2), c7prior (-3)]) = 0 ∧
    (0 : ℚ) ≠ 50 - (10 + 10 + 10) / 3 := by
  refine ⟨?_, rfl, ?_, ?_, ?_, by norm_num⟩ <;>
    norm_num [burnoutTrend, burnoutRiskRaw, windowOf, get_prior_metrics, c7cur, c7prior,
      normalizedWeights, combinedWeights, calculate_time_exponential_weights,
      calculate_missing_data_weights, completeness, metricInd, recoveryRiskScore, hrvRiskScore,
      hrvRiskBase, hrvTrend, sleepRiskScore, strainRecoveryRisk, moodRiskScore, moodRiskBase,
      moodTrend, weightedRisk, riskVals, presentCount, recoveryRiskOf, hrvRiskOf, sleepRiskOf,
      moodRiskOf, strainRiskOf, compute_sleep_quality_score, dateIndexed, List.range_succ,
      List.filterMap_cons, List.filterMap_nil, List.filter]

/-- C7 amended: the burnout trend is computed only when the window has at
least 4 days AND the current day carries a stored burnout score; in that case
it equals the pre-clamp overall score minus the average of the prior days'
stored scores (0 when no prior day has one); when the current day has no
stored score the trend is 0 regardless of the prior days. -/
theorem burnout_trend_characterization (m0 : DailyMetrics)
    (rest : List (Option DailyMetrics)) (prev : List ℚ)
    (h4 : 4 ≤ (some m0 :: rest : List (Option DailyMetrics)).length)
    (hprev : rest.filterMap (fun om => om.bind (fun mm => mm.burnout_current)) = prev) :
    (m0.burnout_current.isSome → prev ≠ [] →
      burnoutTrend (some m0 :: rest) =
        burnoutRiskRaw (some m0 :: rest) - prev.sum / (prev.length : ℚ)) ∧
    (m0.burnout_current.isSome → prev = [] → burnoutTrend (some m0 :: rest) = 0) ∧
    (m0.burnout_current = none → burnoutTrend (some m0 :: rest) = 0) := by
  refine ⟨?_, ?_, ?_⟩
  · intro hb hne
    cases prev with
    | nil => exact absurd rfl hne
    | cons p ps =>
      unfold burnoutTrend
      rw [if_pos h4]
      simp [hb, hprev]
  · intro hb hnil
    subst hnil
    unfold burnoutTrend
    rw [if_pos h4]
    simp [hb, hprev]
  · intro hb
    unfold burnoutTrend
    rw [if_pos h4]
    simp [hb]

theorem burnout_trend_characterization_witness :
    (c7curStored.burnout_current.isSome → ([10, 10, 10] : List ℚ) ≠ [] →
      burnoutTrend (some c7curStored ::
          [some (c7prior (-1)), some (c7prior (-2)), some (c7prior (-3))]) =
        burnoutRiskRaw (some c7curStored ::
          [some (c7prior (-1)), some (c7prior (-2)), some (c7prior (-3))])
          - ([10, 10, 10] : List ℚ).sum / (([10, 10, 10] : List ℚ).length : ℚ)) ∧
    (c7curStored.burnout_current.isSome → ([10, 10, 10] : List ℚ) = [] →
      burnoutTrend (some c7curStored ::
        [some (c7prior (-1)), some (c7prior (-2)), some (c7prior (-3))]) = 0) ∧
    (c7curStored.burnout_current = none →
      burnoutTrend (some c7curStored ::
        [some (c7prior (-1)), some (c7prior (-2)), some (c7prior (-3))]) = 0) :=
  burnout_trend_characterization c7curStored
    [some (c7prior (-1)), some (c7prior (-2)), some (c7prior (-3))] [10, 10, 10]
    (by norm_num)
    (by norm_num [c7prior, List.filterMap_cons, List.filterMap_nil])

theorem riskVals_head_eq (f : DailyMetrics → Option ℚ) (o1 o2 : Option DailyMetrics)
    (t : List (Option DailyMetrics)) (nw : List ℚ) (h : o1.bind f = o2.bind f) :
    riskVals f (o1 :: t) nw = riskVals f (o2 :: t) nw := by
  cases nw with
  | nil => simp [riskVals]
  | cons a ns =>
    unfold riskVals
    simp only [List.zip_cons_cons, List.filterMap_cons, h]

theorem filterMap_bind_head_eq (f : DailyMetrics → Option ℚ) (o1 o2 : Option DailyMetrics)
    (t : List (Option DailyMetrics)) (h : o1.bind f = o2.bind f) :
    (o1 :: t).filterMap (fun om => om.bind f) = (o2 :: t).filterMap (fun om => om.bind f) := by
  simp only [List.filterMap_cons, h]

theorem hrvTrend_head_eq (o1 o2 : Option DailyMetrics) (t : List (Option DailyMetrics))
    (h : o1.bind (fun m => m.hrv) = o2.bind (fun m => m.hrv)) :
    hrvTrend (o1 :: t) = hrvTrend (o2 :: t) := by
  unfold hrvTrend presentCount
  rw [filterMap_bind_head_eq _ _ _ _ h]
  have h3 : (o1 :: t).take 3 = o1 :: t.take 2 := List.take_succ_cons ..
  have h4 : (o2 :: t).take 3 = o2 :: t.take 2 := List.take_succ_cons ..
  rw [h3, h4, filterMap_bind_head_eq _ _ _ _ h]

theorem hrvRiskScore_head_eq (o1 o2 : Option DailyMetrics) (t : List (Option DailyMetrics))
    (nw : List ℚ) (h : o1.bind (fun m => m.hrv) = o2.bind (fun m => m.hrv)) :
    hrvRiskScore (o1 :: t) nw = hrvRiskScore (o2 :: t) nw := by
  have key : ∀ o : Option DailyMetrics, o.bind hrvRiskOf =
      (o.bind (fun m => m.hrv)).map (fun h => max 0 (min 100 (100 - (h - 20) / 80 * 100))) := by
    intro o
    cases o <;> simp [hrvRiskOf]
  have hb : o1.bind hrvRiskOf = o2.bind hrvRiskOf := by
    rw [key, key, h]
  have ht := hrvTrend_head_eq o1 o2 t h
  unfold hrvRiskScore hrvRiskBase
  rw [ht, weightedRisk_congr hrvRiskOf (o1 :: t) (o2 :: t) nw nw
    (riskVals_head_eq hrvRiskOf o1 o2 t nw hb)]

theorem moodTrend_head_eq (o1 o2 : Option DailyMetrics) (t : List (Option DailyMetrics))
    (h : o1.bind (fun m => m.mood_rating) = o2.bind (fun m => m.mood_rating)) :
    moodTrend (o1 :: t) = moodTrend (o2 :: t) := by
  unfold moodTrend presentCount
  rw [filterMap_bind_head_eq _ _ _ _ h]
  have h3 : (o1 :: t).take 3 = o1 :: t.take 2 := List.take_succ_cons ..
  have h4 : (o2 :: t).take 3 = o2 :: t.take 2 := List.take_succ_cons ..
  rw [h3, h4, filterMap_bind_head_eq _ _ _ _ h]

theorem moodRiskScore_head_eq (o1 o2 : Option DailyMetrics) (t : List (Option DailyMetrics))
    (nw : List ℚ) (h : o1.bind (fun m => m.mood_rating) = o2.bind (fun m => m.mood_rating)) :
    moodRiskScore (o1 :: t) nw = moodRiskScore (o2 :: t) nw := by
  have key : ∀ o : Option DailyMetrics, o.bind moodRiskOf =
      (o.bind (fun m => m.mood_rating)).map (fun mr => 100 - (mr - 1) / 9 * 100) := by
    intro o
    cases o <;> simp [moodRiskOf]
  have hb : o1.bind moodRiskOf = o2.bind moodRiskOf := by
    rw [key, key, h]
  have ht := moodTrend_head_eq o1 o2 t h
  unfold moodRiskScore moodRiskBase
  rw [ht, weightedRisk_congr moodRiskOf (o1 :: t) (o2 :: t) nw nw
    (riskVals_head_eq moodRiskOf o1 o2 t nw hb)]

theorem sleepRiskScore_head_eq (o1 o2 : Option DailyMetrics) (t : List (Option DailyMetrics))
    (nw : List ℚ) (h : o1.bind sleepRiskOf = o2.bind sleepRiskOf) :
    sleepRiskScore (o1 :: t) nw = sleepRiskScore (o2 :: t) nw := by
  unfold sleepRiskScore
  rw [weightedRisk_congr sleepRiskOf (o1 :: t) (o2 :: t) nw nw
    (riskVals_head_eq sleepRiskOf o1 o2 t nw h)]

/-- C8: holding everything else fixed, lowering the current day's (present)
recovery score cannot decrease the overall burnout risk score, and strictly
increases it whenever the clamp is not saturated (the higher-recovery output
is below 100 and the lower-recovery output is above 0). -/
theorem burnout_monotone_in_recovery (m : DailyMetrics) (recs : List DailyMetrics)
    (r1 r2 x1 x2 : ℚ) (hle : r2 ≤ r1)
    (h1 : get_burnout_risk_score (some (setRecovery m r1)) recs = some x1)
    (h2 : get_burnout_risk_score (some (setRecovery m r2)) recs = some x2) :
    x1 ≤ x2 ∧ (r2 < r1 → x1 < 100 → 0 < x2 → x1 < x2) := by
  have hval1 : x1 = min 100 (max 0 (burnoutRiskRaw (windowOf (setRecovery m r1) recs))) := by
    have e : get_burnout_risk_score (some (setRecovery m r1)) recs =
        some (min 100 (max 0 (burnoutRiskRaw (windowOf (setRecovery m r1) recs)))) := by
      simp [get_burnout_risk_score, setRecovery]
    rw [e] at h1
    exact (Option.some.inj h1).symm
  have hval2 : x2 = min 100 (max 0 (burnoutRiskRaw (windowOf (setRecovery m r2) recs))) := by
    have e : get_burnout_risk_score (some (setRecovery m r2)) recs =
        some (min 100 (max 0 (burnoutRiskRaw (windowOf (setRecovery m r2) recs)))) := by
      simp [get_burnout_risk_score, setRecovery]
    rw [e] at h2
    exact (Option.some.inj h2).symm
  have hw1 : windowOf (setRecovery m r1) recs =
      some (setRecovery m r1) :: get_prior_metrics m recs 7 := rfl
  have hw2 : windowOf (setRecovery m r2) recs =
      some (setRecovery m r2) :: get_prior_metrics m recs 7 := rfl
  rw [hw1] at hval1
  rw [hw2] at hval2
  obtain ⟨n0, ns, hnw, hn0, hns⟩ :=
    normalizedWeights_shape (setRecovery m r1) (get_prior_metrics m recs 7)
      (by simp [setRecovery])
  have hnwEq : normalizedWeights (some (setRecovery m r2) :: get_prior_metrics m recs 7) =
      normalizedWeights (some (setRecovery m r1) :: get_prior_metrics m recs 7) := rfl
  have hnw2 : normalizedWeights (some (setRecovery m r2) :: get_prior_metrics m recs 7) =
      n0 :: ns := hnwEq.trans hnw
  -- expand the two raw scores over the shared weight list
  have hraw1 : burnoutRiskRaw (some (setRecovery m r1) :: get_prior_metrics m recs 7) =
      recoveryRiskScore (some (setRecovery m r1) :: get_prior_metrics m recs 7) (n0 :: ns) * (1/4)
      + hrvRiskScore (some (setRecovery m r1) :: get_prior_metrics m recs 7) (n0 :: ns) * (3/20)
      + sleepRiskScore (some (setRecovery m r1) :: get_prior_metrics m recs 7) (n0 :: ns) * (3/20)
      + strainRecoveryRisk (some (setRecovery m r1) :: get_prior_metrics m recs 7) (n0 :: ns) * (3/20)
      + moodRiskScore (some (setRecovery m r1) :: get_prior_metrics m recs 7) (n0 :: ns) * (3/10) := by
    unfold burnoutRiskRaw
    rw [hnw]
  have hraw2 : burnoutRiskRaw (some (setRecovery m r2) :: get_prior_metrics m recs 7) =
      recoveryRiskScore (some (setRecovery m r2) :: get_prior_metrics m recs 7) (n0 :: ns) * (1/4)
      + hrvRiskScore (some (setRecovery m r2) :: get_prior_metrics m recs 7) (n0 :: ns) * (3/20)
      + sleepRiskScore (some (setRecovery m r2) :: get_prior_metrics m recs 7) (n0 :: ns) * (3/20)
      + strainRecoveryRisk (some (setRecovery m r2) :: get_prior_metrics m recs 7) (n0 :: ns) * (3/20)
      + moodRiskScore (some (setRecovery m r2) :: get_prior_metrics m recs 7) (n0 :: ns) * (3/10) := by
    unfold burnoutRiskRaw
    rw [hnw2]
  -- components not reading recovery agree
  have hhrv : hrvRiskScore (some (setRecovery m r2) :: get_prior_metrics m recs 7) (n0 :: ns) =
      hrvRiskScore (some (setRecovery m r1) :: get_prior_metrics m recs 7) (n0 :: ns) :=
    hrvRiskScore_head_eq _ _ _ _ rfl
  have hmood : moodRiskScore (some (setRecovery m r2) :: get_prior_metrics m recs 7) (n0 :: ns) =
      moodRiskScore (some (setRecovery m r1) :: get_prior_metrics m recs 7) (n0 :: ns) :=
    moodRiskScore_head_eq _ _ _ _ rfl
  have hsleep : sleepRiskScore (some (setRecovery m r2) :: get_prior_metrics m recs 7) (n0 :: ns) =
      sleepRiskScore (some (setRecovery m r1) :: get_prior_metrics m recs 7) (n0 :: ns) :=
    sleepRiskScore_head_eq _ _ _ _ rfl
  -- recovery component difference
  have hrec1 : recoveryRiskScore (some (setRecovery m r1) :: get_prior_metrics m recs 7) (n0 :: ns) =
      (100 - r1) * n0 +
        ((riskVals recoveryRiskOf (get_prior_metrics m recs 7) ns).map (fun p => p.1 * p.2)).sum :=
    weightedRisk_cons_some recoveryRiskOf _ _ n0 (100 - r1) ns (by simp [setRecovery, recoveryRiskOf])
  have hrec2 : recoveryRiskScore (some (setRecovery m r2) :: get_prior_metrics m recs 7) (n0 :: ns) =
      (100 - r2) * n0 +
        ((riskVals recoveryRiskOf (get_prior_metrics m recs 7) ns).map (fun p => p.1 * p.2)).sum :=
    weightedRisk_cons_some recoveryRiskOf _ _ n0 (100 - r2) ns (by simp [setRecovery, recoveryRiskOf])
  -- strain component comparison
  have hstr : strainRecoveryRisk (some (setRecovery m r1) :: get_prior_metrics m recs 7) (n0 :: ns) ≤
      strainRecoveryRisk (some (setRecovery m r2) :: get_prior_metrics m recs 7) (n0 :: ns) := by
    rcases hst : m.strain with _ | s
    · have e1 : (some (setRecovery m r1)).bind strainRiskOf = none := by
        simp [strainRiskOf, setRecovery, hst]
      have e2 : (some (setRecovery m r2)).bind strainRiskOf = none := by
        simp [strainRiskOf, setRecovery, hst]
      have : strainRecoveryRisk (some (setRecovery m r1) :: get_prior_metrics m recs 7) (n0 :: ns) =
          strainRecoveryRisk (some (setRecovery m r2) :: get_prior_metrics m recs 7) (n0 :: ns) :=
        weightedRisk_congr strainRiskOf _ _ _ _
          ((riskVals_cons_none strainRiskOf _ _ n0 ns e1).trans
            (riskVals_cons_none strainRiskOf _ _ n0 ns e2).symm)
      exact le_of_eq this
    · have e1 : (some (setRecovery m r1)).bind strainRiskOf = some (strainBalanceRisk s r1) := by
        simp [strainRiskOf, setRecovery, hst]
      have e2 : (some (setRecovery m r2)).bind strainRiskOf = some (strainBalanceRisk s r2) := by
        simp [strainRiskOf, setRecovery, hst]
      have q1 := weightedRisk_cons_some strainRiskOf (some (setRecovery m r1))
        (get_prior_metrics m recs 7) n0 (strainBalanceRisk s r1) ns e1
      have q2 := weightedRisk_cons_some strainRiskOf (some (setRecovery m r2))
        (get_prior_metrics m recs 7) n0 (strainBalanceRisk s r2) ns e2
      have hsr := strainBalanceRisk_anti s r1 r2 hle
      have hmul : strainBalanceRisk s r1 * n0 ≤ strainBalanceRisk s r2 * n0 :=
        mul_le_mul_of_nonneg_right hsr (le_of_lt hn0)
      calc strainRecoveryRisk (some (setRecovery m r1) :: get_prior_metrics m recs 7) (n0 :: ns)
          = strainBalanceRisk s r1 * n0 + ((riskVals strainRiskOf (get_prior_metrics m recs 7) ns).map
            (fun p => p.1 * p.2)).sum := q1
        _ ≤ strainBalanceRisk s r2 * n0 + ((riskVals strainRiskOf (get_prior_metrics m recs 7) ns).map
            (fun p => p.1 * p.2)).sum := by linarith
        _ = strainRecoveryRisk (some (setRecovery m r2) :: get_prior_metrics m recs 7) (n0 :: ns) := q2.symm
  -- the raw difference
  have hrawdiff : burnoutRiskRaw (some (setRecovery m r1) :: get_prior_metrics m recs 7)
      + n0 * (r1 - r2) * (1/4) ≤
      burnoutRiskRaw (some (setRecovery m r2) :: get_prior_metrics m recs 7) := by
    rw [hraw1, hraw2, hhrv, hmood, hsleep, hrec1, hrec2]
    nlinarith [hstr]
  have hmono : burnoutRiskRaw (some (setRecovery m r1) :: get_prior_metrics m recs 7) ≤
      burnoutRiskRaw (some (setRecovery m r2) :: get_prior_metrics m recs 7) := by
    have : 0 ≤ n0 * (r1 - r2) * (1/4) := by
      have : 0 ≤ r1 - r2 := by linarith
      positivity
    linarith
  constructor
  · rw [hval1, hval2]
    exact min_le_min le_rfl (max_le_max le_rfl hmono)
  · intro hlt hx1 hx2
    have hstrict : burnoutRiskRaw (some (setRecovery m r1) :: get_prior_metrics m recs 7) <
        burnoutRiskRaw (some (setRecovery m r2) :: get_prior_metrics m recs 7) := by
      have hpos : 0 < n0 * (r1 - r2) * (1/4) := by
        have : 0 < r1 - r2 := by linarith
        positivity
      linarith
    rcases le_or_lt (burnoutRiskRaw (some (setRecovery m r1) :: get_prior_metrics m recs 7)) 0
      with ha | ha
    · have e1 : x1 = 0 := by
        rw [hval1, max_eq_left ha]
        norm_num
      rw [e1]
      exact hx2
    · have ha' : max 0 (burnoutRiskRaw (some (setRecovery m r1) :: get_prior_metrics m recs 7)) =
          burnoutRiskRaw (some (setRecovery m r1) :: get_prior_metrics m recs 7) :=
        max_eq_right (le_of_lt ha)
      have ha100 : burnoutRiskRaw (some (setRecovery m r1) :: get_prior_metrics m recs 7) < 100 := by
        by_contra hc
        push_neg at hc
        have : x1 = 100 := by
          rw [hval1, ha', min_eq_left hc]
        rw [this] at hx1
        exact absurd hx1 (lt_irrefl 100)
      have e1 : x1 = burnoutRiskRaw (some (setRecovery m r1) :: get_prior_metrics m recs 7) := by
        rw [hval1, ha', min_eq_right (le_of_lt ha100)]
      have hb' : max 0 (burnoutRiskRaw (some (setRecovery m r2) :: get_prior_metrics m recs 7)) =
          burnoutRiskRaw (some (setRecovery m r2) :: get_prior_metrics m recs 7) :=
        max_eq_right (le_of_lt (lt_trans ha hstrict))
      rcases le_or_lt 100 (burnoutRiskRaw (some (setRecovery m r2) :: get_prior_metrics m recs 7))
        with hb100 | hb100
      · have e2 : x2 = 100 := by
          rw [hval2, hb', min_eq_left hb100]
        rw [e1, e2]
        exact ha100
      · have e2 : x2 = burnoutRiskRaw (some (setRecovery m r2) :: get_prior_metrics m recs 7) := by
          rw [hval2, hb', min_eq_right (le_of_lt hb100)]
        rw [e1, e2]
        exact hstrict

set_option maxHeartbeats 2000000 in
theorem burnout_monotone_in_recovery_witness :
    (85/2 : ℚ) ≤ 95/2 ∧ ((60:ℚ) < 80 → (85/2:ℚ) < 100 → (0:ℚ) < 95/2 → (85/2:ℚ) < 95/2) :=
  burnout_monotone_in_recovery emptyDay [] 80 60 (85/2) (95/2) (by norm_num)
    (by norm_num [get_burnout_risk_score, burnoutRiskRaw, windowOf, get_prior_metrics,
      setRecovery, emptyDay, normalizedWeights, combinedWeights,
      calculate_time_exponential_weights, calculate_missing_data_weights, completeness,
      metricInd, recoveryRiskScore, hrvRiskScore, hrvRiskBase, hrvTrend, sleepRiskScore,
      strainRecoveryRisk, moodRiskScore, moodRiskBase, moodTrend, weightedRisk, riskVals,
      presentCount, recoveryRiskOf, hrvRiskOf, sleepRiskOf, moodRiskOf, strainRiskOf,
      compute_sleep_quality_score, List.range_succ, List.filterMap_cons, List.filterMap_nil])
    (by norm_num [get_burnout_risk_score, burnoutRiskRaw, windowOf, get_prior_metrics,
      setRecovery, emptyDay, normalizedWeights, combinedWeights,
      calculate_time_exponential_weights, calculate_missing_data_weights, completeness,
      metricInd, recoveryRiskScore, hrvRiskScore, hrvRiskBase, hrvTrend, sleepRiskScore,
      strainRecoveryRisk, moodRiskScore, moodRiskBase, moodTrend, weightedRisk, riskVals,
      presentCount, recoveryRiskOf, hrvRiskOf, sleepRiskOf, moodRiskOf, strainRiskOf,
      compute_sleep_quality_score, List.range_succ, List.filterMap_cons, List.filterMap_nil])
